import Mathlib

set_option maxRecDepth 1000000

/-!
Verification of the incremental news-archive pipeline:
identity hashing (`make_news_id`, `make_article_key`), lazy identity
assignment (`ensure_news_id`, `ensure_article_key`), archive merge and
deduplication (`mergeCore`, `finalizeDF`, `mainRun`), incremental sentiment
enrichment (`ensure_sentiment`), and per-ticker fetch post-processing
(`fetch_news_for_ticker`).

Tables are modelled as lists of rows plus presence flags for the columns the
code tests for (`NewsID`, `ArticleKey`, `sentiment_score`, `sentiment_label`);
nullable cells are `Option` values.  The external sentiment scorer is a
parameter `String → ℚ` giving the compound score.  SHA-256 is implemented
over `Nat` words reduced modulo 2^32.
-/

-- ===================== SHA-256 =====================

def M32 : Nat := 4294967296

def rotr32 (n x : Nat) : Nat :=
  ((x >>> n) ||| (x <<< (32 - n))) % M32

def sha256K : Array Nat := #[
  1116352408, 1899447441, 3049323471, 3921009573, 961987163, 1508970993,
  2453635748, 2870763221, 3624381080, 310598401, 607225278, 1426881987,
  1925078388, 2162078206, 2614888103, 3248222580, 3835390401, 4022224774,
  264347078, 604807628, 770255983, 1249150122, 1555081692, 1996064986,
  2554220882, 2821834349, 2952996808, 3210313671, 3336571891, 3584528711,
  113926993, 338241895, 666307205, 773529912, 1294757372, 1396182291,
  1695183700, 1986661051, 2177026350, 2456956037, 2730485921, 2820302411,
  3259730800, 3345764771, 3516065817, 3600352804, 4094571909, 275423344,
  430227734, 506948616, 659060556, 883997877, 958139571, 1322822218,
  1537002063, 1747873779, 1955562222, 2024104815, 2227730452, 2361852424,
  2428436474, 2756734187, 3204031479, 3329325298]

def sha256H0 : List Nat :=
  [1779033703, 3144134277, 1013904242, 2773480762,
   1359893119, 2600822924, 528734635, 1541459225]

/-- UTF-8 encoding of a single character as a list of byte values. -/
def charUtf8 (c : Char) : List Nat :=
  let n := c.toNat
  if n < 0x80 then [n]
  else if n < 0x800 then [0xC0 ||| (n >>> 6), 0x80 ||| (n &&& 0x3F)]
  else if n < 0x10000 then
    [0xE0 ||| (n >>> 12), 0x80 ||| ((n >>> 6) &&& 0x3F), 0x80 ||| (n &&& 0x3F)]
  else
    [0xF0 ||| (n >>> 18), 0x80 ||| ((n >>> 12) &&& 0x3F),
     0x80 ||| ((n >>> 6) &&& 0x3F), 0x80 ||| (n &&& 0x3F)]

def strBytes (s : String) : List Nat := (s.data.map charUtf8).flatten

/-- SHA-256 message padding of a byte list (append 0x80, zero-pad to 56 mod 64,
then the 64-bit big-endian bit length). -/
def padMessage (msg : List Nat) : List Nat :=
  let L := msg.length
  let z := (120 - ((L + 1) % 64)) % 64
  let bitLen := 8 * L
  msg ++ [0x80] ++ List.replicate z 0 ++
    [(bitLen >>> 56) % 256, (bitLen >>> 48) % 256, (bitLen >>> 40) % 256,
     (bitLen >>> 32) % 256, (bitLen >>> 24) % 256, (bitLen >>> 16) % 256,
     (bitLen >>> 8) % 256, bitLen % 256]

/-- Big-endian grouping of bytes into 32-bit words. -/
def bytesToWords : List Nat → List Nat
  | b0 :: b1 :: b2 :: b3 :: rest => (((b0 * 256 + b1) * 256 + b2) * 256 + b3) :: bytesToWords rest
  | _ => []

/-- Split a list into chunks of 64, with an explicit fuel argument so the
definition is structurally recursive. -/
def chunks64 : Nat → List Nat → List (List Nat)
  | 0, _ => []
  | _, [] => []
  | fuel + 1, a :: rest => ((a :: rest).take 64) :: chunks64 fuel ((a :: rest).drop 64)

def toBlocks (l : List Nat) : List (List Nat) := chunks64 l.length l

/-- Expand the 16 message words of a block to the 64-entry message schedule. -/
def expandSchedule (ws : List Nat) : Array Nat :=
  (List.range 48).foldl (fun arr i =>
    let w15 := arr.getD (i + 1) 0
    let w2 := arr.getD (i + 14) 0
    let s0 := rotr32 7 w15 ^^^ rotr32 18 w15 ^^^ (w15 >>> 3)
    let s1 := rotr32 17 w2 ^^^ rotr32 19 w2 ^^^ (w2 >>> 10)
    arr.push ((arr.getD i 0 + s0 + arr.getD (i + 9) 0 + s1) % M32)) ws.toArray

/-- One SHA-256 compression step over a 64-byte block. -/
def compress (hs : List Nat) (block : List Nat) : List Nat :=
  let w := expandSchedule (bytesToWords block)
  let a0 := hs.getD 0 0
  let b0 := hs.getD 1 0
  let c0 := hs.getD 2 0
  let d0 := hs.getD 3 0
  let e0 := hs.getD 4 0
  let f0 := hs.getD 5 0
  let g0 := hs.getD 6 0
  let h0 := hs.getD 7 0
  let step := fun (st : Nat × Nat × Nat × Nat × Nat × Nat × Nat × Nat) (i : Nat) =>
    let (a, b, c, d, e, f, g, h) := st
    let s1 := rotr32 6 e ^^^ rotr32 11 e ^^^ rotr32 25 e
    let ch := (e &&& f) ^^^ ((e ^^^ 0xFFFFFFFF) &&& g)
    let t1 := (h + s1 + ch + sha256K.getD i 0 + w.getD i 0) % M32
    let s0 := rotr32 2 a ^^^ rotr32 13 a ^^^ rotr32 22 a
    let mj := (a &&& b) ^^^ (a &&& c) ^^^ (b &&& c)
    let t2 := (s0 + mj) % M32
    ((t1 + t2) % M32, a, b, c, (d + t1) % M32, e, f, g)
  let fin := (List.range 64).foldl step (a0, b0, c0, d0, e0, f0, g0, h0)
  match fin with
  | (a, b, c, d, e, f, g, h) =>
    [(a0 + a) % M32, (b0 + b) % M32, (c0 + c) % M32, (d0 + d) % M32,
     (e0 + e) % M32, (f0 + f) % M32, (g0 + g) % M32, (h0 + h) % M32]

def hexDigit (n : Nat) : Char :=
  if n < 10 then Char.ofNat (48 + n) else Char.ofNat (87 + n)

def word32Hex (w : Nat) : String :=
  String.mk ((List.range 8).map fun i => hexDigit ((w >>> (28 - 4 * i)) &&& 15))

/-- Lowercase hex SHA-256 digest of the UTF-8 bytes of a string (the Lean
model of Python hashlib.sha256(key.encode("utf-8")).hexdigest()). -/
def sha256hex (s : String) : String :=
  String.join (((toBlocks (padMessage (strBytes s))).foldl compress sha256H0).map word32Hex)

-- ===================== Python string helpers =====================

/-- ASCII whitespace in the sense of Python str.strip. -/
def isPySpace (c : Char) : Bool :=
  c.toNat = 32 || (9 ≤ c.toNat && c.toNat ≤ 13)

/-- Python str.strip: remove leading and trailing whitespace. -/
def pyStrip (s : String) : String :=
  String.mk (((s.data.dropWhile isPySpace).reverse.dropWhile isPySpace).reverse)

def pyUpperChar (c : Char) : Char :=
  if 97 ≤ c.toNat && c.toNat ≤ 122 then Char.ofNat (c.toNat - 32) else c

def pyLowerChar (c : Char) : Char :=
  if 65 ≤ c.toNat && c.toNat ≤ 90 then Char.ofNat (c.toNat + 32) else c

/-- Python str.upper (ASCII fragment). -/
def pyUpper (s : String) : String := String.mk (s.data.map pyUpperChar)

/-- Python str.lower (ASCII fragment). -/
def pyLower (s : String) : String := String.mk (s.data.map pyLowerChar)

/-- Python `(x or "")` on a nullable string. -/
def pyOrEmpty (o : Option String) : String := o.getD ""

/-- Python sep.join(parts). -/
def joinWith (sep : String) : List String → String
  | [] => ""
  | [x] => x
  | x :: y :: xs => x ++ sep ++ joinWith sep (y :: xs)

-- ===================== Data model =====================

/-- One article record.  All raw cells are nullable strings; the sentiment
score is a nullable rational (the VADER compound score). -/
structure Row where
  ticker : Option String := none
  source : Option String := none
  author : Option String := none
  title : Option String := none
  description : Option String := none
  url : Option String := none
  publishedAt : Option String := none
  content_snippet : Option String := none
  newsId : Option String := none
  articleKey : Option String := none
  sentiment_score : Option ℚ := none
  sentiment_label : Option String := none
deriving DecidableEq, Repr

/-- A pandas DataFrame of article rows.  The four derived columns can be
absent (the code tests `col in df.columns`); a flag records presence.
When a flag is false every cell of that column is `none` in any table that
actually arises from the code. -/
structure DF where
  rows : List Row
  hasNewsID : Bool := false
  hasArticleKey : Bool := false
  hasScore : Bool := false
  hasLabel : Bool := false
deriving DecidableEq, Repr

/-- pd.concat of two frames: rows appended, columns unioned. -/
def DF.append (d1 d2 : DF) : DF :=
  { rows := d1.rows ++ d2.rows,
    hasNewsID := d1.hasNewsID || d2.hasNewsID,
    hasArticleKey := d1.hasArticleKey || d2.hasArticleKey,
    hasScore := d1.hasScore || d2.hasScore,
    hasLabel := d1.hasLabel || d2.hasLabel }

-- ===================== Identity assignment (main.py) =====================

/-- main.py make_news_id: SHA-256 of "TICKER|url|publishedAt" where the
ticker is uppercased (not stripped) and url and publishedAt are stripped;
None fields become the empty string. -/
def make_news_id (ticker url published_at : Option String) : String :=
  sha256hex (pyUpper (pyOrEmpty ticker) ++ "|" ++ pyStrip (pyOrEmpty url) ++ "|" ++
    pyStrip (pyOrEmpty published_at))

/-- main.py make_article_key: SHA-256 of "TICKER|title|publishedAt" where the
ticker is uppercased then stripped and the title stripped then lowercased. -/
def make_article_key (ticker title published_at : Option String) : String :=
  sha256hex (pyStrip (pyUpper (pyOrEmpty ticker)) ++ "|" ++
    pyLower (pyStrip (pyOrEmpty title)) ++ "|" ++ pyStrip (pyOrEmpty published_at))

def recomputeNewsIdRows (rows : List Row) : List Row :=
  rows.map fun r => { r with newsId := some (make_news_id r.ticker r.url r.publishedAt) }

/-- main.py ensure_news_id: if the frame is empty return it; if the NewsID
column is missing or any entry is null, assign the whole column from
make_news_id; otherwise return the frame unchanged. -/
def ensure_news_id (df : DF) : DF :=
  if df.rows.isEmpty then df
  else if !df.hasNewsID || df.rows.any (fun r => r.newsId.isNone) then
    { df with hasNewsID := true, rows := recomputeNewsIdRows df.rows }
  else df

def recomputeArticleKeyRows (rows : List Row) : List Row :=
  rows.map fun r => { r with articleKey := some (make_article_key r.ticker r.title r.publishedAt) }

/-- main.py ensure_article_key (same column-level shape as ensure_news_id). -/
def ensure_article_key (df : DF) : DF :=
  if df.rows.isEmpty then df
  else if !df.hasArticleKey || df.rows.any (fun r => r.articleKey.isNone) then
    { df with hasArticleKey := true, rows := recomputeArticleKeyRows df.rows }
  else df

-- ===================== drop_duplicates =====================

/-- Structural worker for keyed deduplication (fuel bounds the recursion so
the kernel can evaluate it). -/
def dedupeByFuel {α β : Type} [DecidableEq β] (k : α → β) : Nat → List α → List α
  | 0, _ => []
  | _, [] => []
  | fuel + 1, a :: l => a :: dedupeByFuel k fuel (l.filter fun x => decide (k x ≠ k a))

/-- pandas drop_duplicates(subset=[k], keep="first"): keep the first row with
each key value; NaN keys count as equal (the key is an Option). -/
def dedupeBy {α β : Type} [DecidableEq β] (k : α → β) (l : List α) : List α :=
  dedupeByFuel k l.length l

def dropDupBy (k : Row → Option String) (df : DF) : DF :=
  { df with rows := dedupeBy k df.rows }

-- ===================== Sentiment (news_sentiment.py) =====================

/-- The 0.05 threshold of the VADER labelling rule. -/
def vaderThreshold : ℚ := mkRat 5 100

/-- news_sentiment.py _sentiment_for_text with the analyzer abstracted as
`scorer` returning the compound score: empty or whitespace-only text gives
(None, None) without consulting the scorer; otherwise label by threshold. -/
def sentiment_for_text (scorer : String → ℚ) (text : String) : Option ℚ × Option String :=
  if text.isEmpty || (pyStrip text).isEmpty then (none, none)
  else
    let compound := scorer text
    let label := if compound ≥ vaderThreshold then "positive"
      else if compound ≤ -vaderThreshold then "negative"
      else "neutral"
    (some compound, some label)

/-- The text parts of a row: for each of title, description, content_snippet
in that order, include the stripped value when it is a string with non-empty
strip. -/
def textParts (r : Row) : List String :=
  [r.title, r.description, r.content_snippet].foldr (fun v acc =>
    match v with
    | some s => if (pyStrip s).isEmpty then acc else pyStrip s :: acc
    | none => acc) []

/-- The composed text of a row: " ".join(parts). -/
def composed_text (r : Row) : String := joinWith " " (textParts r)

/-- Recompute the sentiment cells of one row from its composed text. -/
def sentRow (scorer : String → ℚ) (r : Row) : Row :=
  let sl := sentiment_for_text scorer (composed_text r)
  { r with sentiment_score := sl.1, sentiment_label := sl.2 }

/-- df[score_col] = np.nan when the column is missing. -/
def addScoreCol (df : DF) : DF :=
  if df.hasScore then df
  else { df with hasScore := true, rows := df.rows.map fun r => { r with sentiment_score := none } }

/-- df[label_col] = pd.NA when the column is missing. -/
def addLabelCol (df : DF) : DF :=
  if df.hasLabel then df
  else { df with hasLabel := true, rows := df.rows.map fun r => { r with sentiment_label := none } }

/-- news_sentiment.py ensure_sentiment: create missing sentiment columns,
then compute sentiment exactly for the rows whose score is null. -/
def ensure_sentiment (scorer : String → ℚ) (df : DF) : DF :=
  if df.rows.isEmpty then df
  else
    let d := addLabelCol (addScoreCol df)
    if d.rows.all (fun r => r.sentiment_score.isSome) then d
    else { d with rows := d.rows.map fun r => if r.sentiment_score.isSome then r else sentRow scorer r }

-- ===================== Merge pipeline (main.py main) =====================

/-- main.py lines 328-347: normalise both frames, drop batch rows whose
NewsID is already in the archive, and append the remainder (the archive is
returned as-is when nothing new remains). -/
def mergeCore (existing new : DF) : DF :=
  let ex := ensure_article_key (ensure_news_id existing)
  let nd := ensure_article_key (ensure_news_id new)
  let newOnly := nd.rows.filter fun r => decide (r.newsId ∉ ex.rows.map Row.newsId)
  if newOnly.isEmpty then ex else DF.append ex { nd with rows := newOnly }

/-- main.py lines 353-358: the final ArticleKey assignment, the NewsID dedup
pass, the ArticleKey dedup pass (in that order), then sentiment enrichment.
This is the archive state that gets persisted. -/
def finalizeDF (df : DF) (scorer : String → ℚ) : DF :=
  ensure_sentiment scorer (dropDupBy Row.articleKey (dropDupBy Row.newsId (ensure_article_key df)))

/-- A full merge run against an existing archive. -/
def mergeMain (archive batch : DF) (scorer : String → ℚ) : DF :=
  finalizeDF (mergeCore archive batch) scorer

/-- Outcome of one run of main: either the "nothing to do" no-op notice (no
file written), or the frame written to news_db.csv. -/
inductive RunOutcome where
  | nothingToDo : RunOutcome
  | saved : DF → RunOutcome
deriving DecidableEq, Repr

/-- main.py main, with fetching abstracted: `fetched` is the concatenated
per-ticker data when any ticker was fetched, `archive` the stored frame if
news_db.csv exists. -/
def mainRun (archive fetched : Option DF) (scorer : String → ℚ) : RunOutcome :=
  match fetched with
  | none =>
    match archive with
    | none => RunOutcome.nothingToDo
    | some ar => RunOutcome.saved (finalizeDF (ensure_article_key (ensure_news_id ar)) scorer)
  | some nb =>
    match archive with
    | none => RunOutcome.saved (finalizeDF (ensure_article_key (ensure_news_id nb)) scorer)
    | some ar => RunOutcome.saved (mergeMain ar nb scorer)

-- ===================== Fetch post-processing (main.py) =====================

/-- A raw article dict from the fetch client. -/
structure RawArticle where
  sourceName : Option String := none
  author : Option String := none
  title : Option String := none
  description : Option String := none
  url : Option String := none
  publishedAt : Option String := none
  content : Option String := none
deriving DecidableEq, Repr

/-- The row built per article in fetch_news_for_ticker. -/
def rowOfArticle (ticker : String) (a : RawArticle) : Row :=
  { ticker := some (pyUpper ticker), source := a.sourceName, author := a.author,
    title := a.title, description := a.description, url := a.url,
    publishedAt := a.publishedAt, content_snippet := a.content }

/-- main.py fetch_news_for_ticker, post-fetch processing: build the frame,
deduplicate by url alone, then assign NewsID. -/
def fetch_news_for_ticker (ticker : String) (articles : List RawArticle) : DF :=
  let df : DF := { rows := articles.map (rowOfArticle ticker) }
  if df.rows.isEmpty then df
  else ensure_news_id { df with rows := dedupeBy Row.url df.rows }

-- ===================== Derived batch/merge descriptions =====================

/-- The batch rows that survive the NewsID-membership filter against the
archive (assuming the archive already carries its identity columns). -/
def newRows (ar nb : DF) : List Row :=
  (ensure_article_key (ensure_news_id nb)).rows.filter fun r =>
    decide (r.newsId ∉ ar.rows.map Row.newsId)

/-- The batch rows that actually make it into the persisted archive of a
merge run against a well-formed archive `ar`. -/
def mergeS (ar nb : DF) : List Row :=
  dedupeBy Row.articleKey ((dedupeBy Row.newsId (newRows ar nb)).filter fun r =>
    decide (r.articleKey ∉ ar.rows.map Row.articleKey))

-- ===================== Spec-side definition for the NewsID claim =====================

/-- The NewsID formula as the spec words it: ticker uppercased AND trimmed
(the code does not trim the ticker). -/
def news_id_spec_normalized (ticker url published_at : Option String) : String :=
  sha256hex (pyStrip (pyUpper (pyOrEmpty ticker)) ++ "|" ++ pyStrip (pyOrEmpty url) ++ "|" ++
    pyStrip (pyOrEmpty published_at))

-- ===================== Concrete frames for scenarios and witnesses =====================

/-- A scorer that rates every text 0 (used to instantiate the external
sentiment collaborator on concrete runs). -/
def zeroScorer : String → ℚ := fun _ => 0

/-- The archive row of the cross-source duplicate scenario. -/
def rowA : Row :=
  { ticker := some "NVDA", title := some "Chip news", url := some "a", publishedAt := some "t1" }

/-- The batch row of the cross-source duplicate scenario: same ticker, title
and timestamp, different URL. -/
def rowB : Row :=
  { ticker := some "NVDA", title := some "Chip news", url := some "b", publishedAt := some "t1" }

def arC3 : DF := { rows := [rowA] }

def nbC3 : DF := { rows := [rowB] }

/-- A fully-keyed archive row used in witnesses. -/
def wRow1 : Row :=
  { ticker := some "NVDA", url := some "a", publishedAt := some "t1",
    newsId := some "n1", articleKey := some "k1",
    sentiment_score := some 0, sentiment_label := some "neutral" }

def wAr1 : DF :=
  { rows := [wRow1], hasNewsID := true, hasArticleKey := true, hasScore := true, hasLabel := true }

/-- A batch whose single row repeats an already-archived NewsID. -/
def wNb1 : DF :=
  { rows := [{ wRow1 with url := some "c" }],
    hasNewsID := true, hasArticleKey := true, hasScore := true, hasLabel := true }

/-- A batch bringing one genuinely new row. -/
def wNb6 : DF :=
  { rows := [{ wRow1 with url := some "c", newsId := some "n2", articleKey := some "k2" }],
    hasNewsID := true, hasArticleKey := true, hasScore := true, hasLabel := true }

/-- An archive that violates the ArticleKey-uniqueness invariant: two rows
with distinct NewsIDs but the same ArticleKey. -/
def cexAr6 : DF :=
  { rows := [wRow1,
      { wRow1 with url := some "b", newsId := some "n2", articleKey := some "k1" }],
    hasNewsID := true, hasArticleKey := true, hasScore := true, hasLabel := true }

/-- A batch row sharing its NewsID with the second archive row of `cexAr6`
but carrying a fresh ArticleKey. -/
def cexNb6 : DF :=
  { rows := [{ wRow1 with url := some "b", newsId := some "n2", articleKey := some "k9" }],
    hasNewsID := true, hasArticleKey := true, hasScore := true, hasLabel := true }

/-- A frame whose NewsID column is present, with one non-null and one null
entry. -/
def c5df : DF :=
  { rows := [{ ticker := some "NVDA", url := some "a", publishedAt := some "t1",
               newsId := some "oldid" },
      { ticker := some "NVDA", url := some "b", publishedAt := some "t1" }],
    hasNewsID := true }

/-- A frame with one already-scored row and one unscored row. -/
def c7df : DF :=
  { rows := [{ ticker := some "NVDA", title := some "Great earnings", newsId := some "n1",
               sentiment_score := some (mkRat 9 10), sentiment_label := some "positive" },
      { ticker := some "NVDA", title := some "Bad quarter", newsId := some "n2" }],
    hasNewsID := true, hasScore := true, hasLabel := true }

/-- Two fetched articles sharing a URL but differing in timestamp. -/
def artT1 : RawArticle := { url := some "u", publishedAt := some "t1", title := some "x" }

def artT2 : RawArticle := { url := some "u", publishedAt := some "t2", title := some "x" }

def wDF4 : DF :=
  { rows := [{ ticker := some "NVDA", url := some "a", newsId := some "n1",
               articleKey := some "k1", sentiment_score := some 0,
               sentiment_label := some "neutral" }],
    hasNewsID := true, hasArticleKey := true, hasScore := true, hasLabel := true }

/-- The frame persisted by the run of `mainRun none (some wDF4) zeroScorer`. -/
def wOut4 : DF := finalizeDF (ensure_article_key (ensure_news_id wDF4)) zeroScorer

-- ===================== Lemmas: keyed deduplication =====================

theorem dedupeByFuel_congr {α β : Type} [DecidableEq β] (k : α → β) :
    ∀ (f1 f2 : Nat) (l : List α), l.length ≤ f1 → l.length ≤ f2 →
      dedupeByFuel k f1 l = dedupeByFuel k f2 l := by
  intro f1
  induction f1 with
  | zero =>
    intro f2 l h1 _
    have hl : l = [] := List.length_eq_zero.mp (Nat.le_zero.mp h1)
    subst hl
    cases f2 <;> rfl
  | succ n ih =>
    intro f2 l h1 h2
    cases l with
    | nil => cases f2 <;> rfl
    | cons a t =>
      cases f2 with
      | zero => simp at h2
      | succ m =>
        simp only [dedupeByFuel, List.cons.injEq, true_and]
        exact ih m _ (le_trans (List.length_filter_le _ _) (Nat.le_of_succ_le_succ h1))
          (le_trans (List.length_filter_le _ _) (Nat.le_of_succ_le_succ h2))

theorem dedupeBy_nil {α β : Type} [DecidableEq β] (k : α → β) :
    dedupeBy k ([] : List α) = [] := rfl

theorem dedupeBy_cons {α β : Type} [DecidableEq β] (k : α → β) (a : α) (l : List α) :
    dedupeBy k (a :: l) = a :: dedupeBy k (l.filter fun x => decide (k x ≠ k a)) := by
  show dedupeByFuel k (a :: l).length (a :: l) = _
  simp only [List.length_cons, dedupeByFuel, List.cons.injEq, true_and]
  exact dedupeByFuel_congr k l.length _ _ (List.length_filter_le _ _) (le_refl _)

theorem dedupeBy_sublist {α β : Type} [DecidableEq β] (k : α → β) :
    ∀ l : List α, (dedupeBy k l).Sublist l
  | [] => by rw [dedupeBy_nil]
  | a :: t => by
    rw [dedupeBy_cons]
    exact List.Sublist.cons₂ a
      ((dedupeBy_sublist k (t.filter fun x => decide (k x ≠ k a))).trans (List.filter_sublist t))
termination_by l => l.length
decreasing_by
  simp only [List.length_cons]
  exact Nat.lt_succ_of_le (List.length_filter_le _ _)

theorem mem_of_mem_dedupeBy {α β : Type} [DecidableEq β] {k : α → β} {l : List α} {x : α}
    (h : x ∈ dedupeBy k l) : x ∈ l :=
  (dedupeBy_sublist k l).subset h

theorem nodup_map_dedupeBy {α β : Type} [DecidableEq β] (k : α → β) :
    ∀ l : List α, ((dedupeBy k l).map k).Nodup
  | [] => by rw [dedupeBy_nil]; exact List.nodup_nil
  | a :: t => by
    rw [dedupeBy_cons]
    simp only [List.map_cons, List.nodup_cons]
    refine ⟨?_, nodup_map_dedupeBy k (t.filter fun x => decide (k x ≠ k a))⟩
    intro hmem
    obtain ⟨x, hx, hkx⟩ := List.mem_map.mp hmem
    have hx2 := (List.mem_filter.mp (mem_of_mem_dedupeBy hx)).2
    rw [decide_eq_true_eq] at hx2
    exact hx2 hkx
termination_by l => l.length
decreasing_by
  simp only [List.length_cons]
  exact Nat.lt_succ_of_le (List.length_filter_le _ _)

theorem mem_map_dedupeBy {α β : Type} [DecidableEq β] (k : α → β) :
    ∀ (l : List α) (x : α), x ∈ l → k x ∈ (dedupeBy k l).map k
  | a :: t, x, hx => by
    rw [dedupeBy_cons]
    simp only [List.map_cons, List.mem_cons]
    rcases List.mem_cons.mp hx with rfl | hxt
    · exact Or.inl rfl
    · by_cases hk : k x = k a
      · exact Or.inl hk
      · refine Or.inr (mem_map_dedupeBy k _ x ?_)
        exact List.mem_filter.mpr ⟨hxt, by rw [decide_eq_true_eq]; exact hk⟩
termination_by l => l.length
decreasing_by
  simp only [List.length_cons]
  exact Nat.lt_succ_of_le (List.length_filter_le _ _)

theorem dedupeBy_append {α β : Type} [DecidableEq β] (k : α → β) (l1 l2 : List α)
    (h : (l1.map k).Nodup) :
    dedupeBy k (l1 ++ l2) = l1 ++ dedupeBy k (l2.filter fun x => decide (k x ∉ l1.map k)) := by
  induction l1 generalizing l2 with
  | nil =>
    simp only [List.nil_append]
    have : (l2.filter fun x => decide (k x ∉ ([] : List α).map k)) = l2 :=
      List.filter_eq_self.mpr (by simp)
    rw [this]
  | cons a t ih =>
    simp only [List.map_cons, List.nodup_cons] at h
    obtain ⟨ha, ht⟩ := h
    rw [List.cons_append, dedupeBy_cons, List.filter_append]
    have hta : (t.filter fun x => decide (k x ≠ k a)) = t := by
      refine List.filter_eq_self.mpr ?_
      intro x hx
      rw [decide_eq_true_eq]
      intro hk
      exact ha (hk ▸ List.mem_map_of_mem k hx)
    rw [hta, ih _ ht]
    simp only [List.cons_append, List.cons.injEq, true_and, List.append_cancel_left_eq]
    congr 1
    rw [List.filter_filter]
    refine List.filter_congr ?_
    intro x _
    by_cases h1 : k x = k a
    · simp [h1]
    · by_cases h2 : k x ∈ t.map k <;> simp [h1, h2]

theorem dedupeBy_eq_self {α β : Type} [DecidableEq β] (k : α → β) (l : List α)
    (h : (l.map k).Nodup) : dedupeBy k l = l := by
  have h2 := dedupeBy_append k l [] h
  simpa [dedupeBy_nil] using h2

theorem dedupeBy_filter_comm {α β : Type} [DecidableEq β] (k : α → β) (p : α → Bool)
    (hp : ∀ x y, k x = k y → p x = p y) :
    ∀ l : List α, dedupeBy k (l.filter p) = (dedupeBy k l).filter p
  | [] => by simp [dedupeBy_nil]
  | a :: t => by
    rw [dedupeBy_cons]
    by_cases hpa : p a = true
    · rw [List.filter_cons_of_pos hpa, dedupeBy_cons, List.filter_cons_of_pos hpa]
      have hswap : ((t.filter p).filter fun x => decide (k x ≠ k a))
          = (t.filter fun x => decide (k x ≠ k a)).filter p := by
        rw [List.filter_filter, List.filter_filter]
        exact List.filter_congr (by intro x _; exact Bool.and_comm _ _)
      rw [hswap, dedupeBy_filter_comm k p hp (t.filter fun x => decide (k x ≠ k a))]
    · rw [List.filter_cons_of_neg hpa]
      have habs : t.filter p = (t.filter fun x => decide (k x ≠ k a)).filter p := by
        rw [List.filter_filter]
        refine List.filter_congr ?_
        intro x _
        by_cases hk : k x = k a
        · have := hp x a hk
          rw [this]
          simp [hpa, Bool.eq_false_iff.mpr hpa]
        · simp [hk]
      rw [habs, dedupeBy_filter_comm k p hp (t.filter fun x => decide (k x ≠ k a)),
        List.filter_cons_of_neg hpa]
termination_by l => l.length
decreasing_by
  all_goals simp only [List.length_cons]
  all_goals exact Nat.lt_succ_of_le (List.length_filter_le _ _)

-- ===================== Lemmas: identity assignment =====================

theorem ensure_news_id_noop (df : DF) (h1 : df.hasNewsID = true)
    (h2 : ∀ r ∈ df.rows, r.newsId.isSome) : ensure_news_id df = df := by
  unfold ensure_news_id
  by_cases he : df.rows.isEmpty
  · rw [if_pos he]
  · rw [if_neg he, if_neg]
    simp only [h1, Bool.not_true, Bool.false_or, Bool.not_eq_true]
    rw [List.any_eq_false]
    intro r hr
    have h3 := h2 r hr
    cases hn : r.newsId with
    | none => rw [hn] at h3; simp at h3
    | some v => simp [hn]

theorem ensure_article_key_noop (df : DF) (h1 : df.hasArticleKey = true)
    (h2 : ∀ r ∈ df.rows, r.articleKey.isSome) : ensure_article_key df = df := by
  unfold ensure_article_key
  by_cases he : df.rows.isEmpty
  · rw [if_pos he]
  · rw [if_neg he, if_neg]
    simp only [h1, Bool.not_true, Bool.false_or, Bool.not_eq_true]
    rw [List.any_eq_false]
    intro r hr
    have h3 := h2 r hr
    cases hn : r.articleKey with
    | none => rw [hn] at h3; simp at h3
    | some v => simp [hn]

theorem ensure_news_id_all_some (df : DF) :
    ∀ r ∈ (ensure_news_id df).rows, r.newsId.isSome := by
  unfold ensure_news_id
  by_cases he : df.rows.isEmpty
  · rw [if_pos he]
    rw [List.isEmpty_iff] at he
    simp [he]
  · rw [if_neg he]
    by_cases hc : (!df.hasNewsID || df.rows.any fun r => r.newsId.isNone) = true
    · rw [if_pos hc]
      intro r hr
      simp only [recomputeNewsIdRows, List.mem_map] at hr
      obtain ⟨x, _, rfl⟩ := hr
      rfl
    · rw [if_neg hc]
      simp only [Bool.or_eq_true, Bool.not_eq_true', not_or, Bool.not_eq_true] at hc
      intro r hr
      have := List.any_eq_false.mp hc.2 r hr
      simp only [Bool.not_eq_true, Option.isNone_eq_false_iff] at this
      exact this

theorem ensure_article_key_all_some (df : DF) :
    ∀ r ∈ (ensure_article_key df).rows, r.articleKey.isSome := by
  unfold ensure_article_key
  by_cases he : df.rows.isEmpty
  · rw [if_pos he]
    rw [List.isEmpty_iff] at he
    simp [he]
  · rw [if_neg he]
    by_cases hc : (!df.hasArticleKey || df.rows.any fun r => r.articleKey.isNone) = true
    · rw [if_pos hc]
      intro r hr
      simp only [recomputeArticleKeyRows, List.mem_map] at hr
      obtain ⟨x, _, rfl⟩ := hr
      rfl
    · rw [if_neg hc]
      simp only [Bool.or_eq_true, Bool.not_eq_true', not_or, Bool.not_eq_true] at hc
      intro r hr
      have := List.any_eq_false.mp hc.2 r hr
      simp only [Bool.not_eq_true, Option.isNone_eq_false_iff] at this
      exact this

theorem ensure_article_key_map_newsId (df : DF) :
    (ensure_article_key df).rows.map Row.newsId = df.rows.map Row.newsId := by
  unfold ensure_article_key
  split
  · rfl
  · split
    · simp [recomputeArticleKeyRows, List.map_map]
    · rfl

theorem ensure_news_id_map_articleKey (df : DF) :
    (ensure_news_id df).rows.map Row.articleKey = df.rows.map Row.articleKey := by
  unfold ensure_news_id
  split
  · rfl
  · split
    · simp [recomputeNewsIdRows, List.map_map]
    · rfl

theorem ensure_news_id_hasArticleKey (df : DF) :
    (ensure_news_id df).hasArticleKey = df.hasArticleKey := by
  unfold ensure_news_id
  split
  · rfl
  · split <;> rfl

theorem ensure_article_key_hasNewsID (df : DF) :
    (ensure_article_key df).hasNewsID = df.hasNewsID := by
  unfold ensure_article_key
  split
  · rfl
  · split <;> rfl

/-- After the two identity-assignment passes, every row of the batch carries
both identity values. -/
theorem ensured_batch_all_some (nb : DF) :
    ∀ r ∈ (ensure_article_key (ensure_news_id nb)).rows,
      r.newsId.isSome ∧ r.articleKey.isSome := by
  intro r hr
  refine ⟨?_, ensure_article_key_all_some _ r hr⟩
  have hmap := ensure_article_key_map_newsId (ensure_news_id nb)
  have hmem : r.newsId ∈ (ensure_article_key (ensure_news_id nb)).rows.map Row.newsId :=
    List.mem_map_of_mem Row.newsId hr
  rw [hmap] at hmem
  obtain ⟨x, hx, hxe⟩ := List.mem_map.mp hmem
  have := ensure_news_id_all_some nb x hx
  exact hxe ▸ this

-- ===================== Lemmas: sentiment enrichment shape =====================

theorem addScoreCol_rows_map (df : DF) :
    ∃ h : Row → Row, (addScoreCol df).rows = df.rows.map h ∧
      ∀ r, (h r).newsId = r.newsId ∧ (h r).articleKey = r.articleKey := by
  unfold addScoreCol
  split
  · exact ⟨id, by simp, by simp⟩
  · exact ⟨fun r => { r with sentiment_score := none }, rfl, fun r => ⟨rfl, rfl⟩⟩

theorem addLabelCol_rows_map (df : DF) :
    ∃ h : Row → Row, (addLabelCol df).rows = df.rows.map h ∧
      ∀ r, (h r).newsId = r.newsId ∧ (h r).articleKey = r.articleKey := by
  unfold addLabelCol
  split
  · exact ⟨id, by simp, by simp⟩
  · exact ⟨fun r => { r with sentiment_label := none }, rfl, fun r => ⟨rfl, rfl⟩⟩

theorem sentRow_newsId (scorer : String → ℚ) (r : Row) :
    (sentRow scorer r).newsId = r.newsId := rfl

theorem sentRow_articleKey (scorer : String → ℚ) (r : Row) :
    (sentRow scorer r).articleKey = r.articleKey := rfl

theorem ensure_sentiment_rows_map (scorer : String → ℚ) (df : DF) :
    ∃ h : Row → Row, (ensure_sentiment scorer df).rows = df.rows.map h ∧
      ∀ r, (h r).newsId = r.newsId ∧ (h r).articleKey = r.articleKey := by
  obtain ⟨h1, e1, p1⟩ := addScoreCol_rows_map df
  obtain ⟨h2, e2, p2⟩ := addLabelCol_rows_map (addScoreCol df)
  simp only [ensure_sentiment]
  split
  · exact ⟨id, by simp, by simp⟩
  · split
    · refine ⟨h2 ∘ h1, ?_, ?_⟩
      · rw [e2, e1, List.map_map]
      · intro r
        constructor
        · rw [Function.comp_apply, (p2 _).1, (p1 _).1]
        · rw [Function.comp_apply, (p2 _).2, (p1 _).2]
    · refine ⟨(fun r => if r.sentiment_score.isSome then r else sentRow scorer r) ∘ h2 ∘ h1, ?_, ?_⟩
      · show (addLabelCol (addScoreCol df)).rows.map _ = _
        rw [e2, e1, List.map_map, List.map_map]
        rfl
      · intro r
        simp only [Function.comp_apply]
        constructor
        · split
          · rw [(p2 _).1, (p1 _).1]
          · rw [sentRow_newsId, (p2 _).1, (p1 _).1]
        · split
          · rw [(p2 _).2, (p1 _).2]
          · rw [sentRow_articleKey, (p2 _).2, (p1 _).2]

theorem addScoreCol_hasNewsID (df : DF) : (addScoreCol df).hasNewsID = df.hasNewsID := by
  unfold addScoreCol
  split <;> rfl

theorem addScoreCol_hasArticleKey (df : DF) :
    (addScoreCol df).hasArticleKey = df.hasArticleKey := by
  unfold addScoreCol
  split <;> rfl

theorem addLabelCol_hasNewsID (df : DF) : (addLabelCol df).hasNewsID = df.hasNewsID := by
  unfold addLabelCol
  split <;> rfl

theorem addLabelCol_hasArticleKey (df : DF) :
    (addLabelCol df).hasArticleKey = df.hasArticleKey := by
  unfold addLabelCol
  split <;> rfl

theorem ensure_sentiment_hasNewsID (scorer : String → ℚ) (df : DF) :
    (ensure_sentiment scorer df).hasNewsID = df.hasNewsID := by
  simp only [ensure_sentiment]
  split
  · rfl
  · split
    · rw [addLabelCol_hasNewsID, addScoreCol_hasNewsID]
    · show (addLabelCol (addScoreCol df)).hasNewsID = df.hasNewsID
      rw [addLabelCol_hasNewsID, addScoreCol_hasNewsID]

theorem ensure_sentiment_hasArticleKey (scorer : String → ℚ) (df : DF) :
    (ensure_sentiment scorer df).hasArticleKey = df.hasArticleKey := by
  simp only [ensure_sentiment]
  split
  · rfl
  · split
    · rw [addLabelCol_hasArticleKey, addScoreCol_hasArticleKey]
    · show (addLabelCol (addScoreCol df)).hasArticleKey = df.hasArticleKey
      rw [addLabelCol_hasArticleKey, addScoreCol_hasArticleKey]

-- ===================== Lemmas: merge structure =====================

/-- The well-formedness invariant of a persisted archive: both identity
columns present, fully populated, and duplicate-free. -/
def ArchiveWF (ar : DF) : Prop :=
  ar.hasNewsID = true ∧ ar.hasArticleKey = true ∧
  (∀ r ∈ ar.rows, r.newsId.isSome ∧ r.articleKey.isSome) ∧
  (ar.rows.map Row.newsId).Nodup ∧ (ar.rows.map Row.articleKey).Nodup

theorem ensured_archive_noop (ar : DF) (h : ArchiveWF ar) :
    ensure_article_key (ensure_news_id ar) = ar := by
  obtain ⟨h1, h2, h3, _, _⟩ := h
  rw [ensure_news_id_noop ar h1 fun r hr => (h3 r hr).1]
  exact ensure_article_key_noop ar h2 fun r hr => (h3 r hr).2

theorem mem_newRows {ar nb : DF} {r : Row} (h : r ∈ newRows ar nb) :
    (r.newsId.isSome ∧ r.articleKey.isSome) ∧ r.newsId ∉ ar.rows.map Row.newsId := by
  unfold newRows at h
  obtain ⟨hmem, hflt⟩ := List.mem_filter.mp h
  exact ⟨ensured_batch_all_some nb r hmem, by simpa using hflt⟩

theorem mergeCore_rows (ar nb : DF) (h : ArchiveWF ar) :
    (mergeCore ar nb).rows = ar.rows ++ newRows ar nb := by
  simp only [mergeCore, newRows, ensured_archive_noop ar h]
  split
  · next hemp =>
    rw [List.isEmpty_iff] at hemp
    rw [hemp, List.append_nil]
  · rfl

theorem mergeCore_hasNewsID (ar nb : DF) (h : ArchiveWF ar) :
    (mergeCore ar nb).hasNewsID = true := by
  simp only [mergeCore, ensured_archive_noop ar h]
  split
  · exact h.1
  · simp [DF.append, h.1]

theorem mergeCore_hasArticleKey (ar nb : DF) (h : ArchiveWF ar) :
    (mergeCore ar nb).hasArticleKey = true := by
  simp only [mergeCore, ensured_archive_noop ar h]
  split
  · exact h.2.1
  · simp [DF.append, h.2.1]

theorem mergeCore_all_some (ar nb : DF) (h : ArchiveWF ar) :
    ∀ r ∈ (mergeCore ar nb).rows, r.newsId.isSome ∧ r.articleKey.isSome := by
  intro r hr
  rw [mergeCore_rows ar nb h] at hr
  rcases List.mem_append.mp hr with hr | hr
  · exact h.2.2.1 r hr
  · exact (mem_newRows hr).1

theorem mem_mergeS {ar nb : DF} {r : Row} (h : r ∈ mergeS ar nb) :
    r ∈ newRows ar nb ∧ r.articleKey ∉ ar.rows.map Row.articleKey := by
  unfold mergeS at h
  have h2 := mem_of_mem_dedupeBy h
  obtain ⟨hmem, hflt⟩ := List.mem_filter.mp h2
  exact ⟨mem_of_mem_dedupeBy hmem, by simpa using hflt⟩

/-- Row-level description of one merge run against a well-formed archive:
the persisted rows are the archive rows followed by the surviving batch rows
`mergeS ar nb`, all transformed only in their sentiment cells. -/
theorem mergeMain_rows (ar nb : DF) (scorer : String → ℚ) (h : ArchiveWF ar) :
    ∃ hmap : Row → Row,
      (∀ r, (hmap r).newsId = r.newsId ∧ (hmap r).articleKey = r.articleKey) ∧
      (mergeMain ar nb scorer).rows = (ar.rows ++ mergeS ar nb).map hmap := by
  unfold mergeMain finalizeDF
  have hek : ensure_article_key (mergeCore ar nb) = mergeCore ar nb :=
    ensure_article_key_noop _ (mergeCore_hasArticleKey ar nb h)
      (fun r hr => (mergeCore_all_some ar nb h r hr).2)
  rw [hek]
  have hd1 : (dropDupBy Row.newsId (mergeCore ar nb)).rows
      = ar.rows ++ dedupeBy Row.newsId (newRows ar nb) := by
    show dedupeBy Row.newsId (mergeCore ar nb).rows = _
    rw [mergeCore_rows ar nb h, dedupeBy_append _ _ _ h.2.2.2.1]
    congr 1
    congr 1
    refine List.filter_eq_self.mpr ?_
    intro x hx
    simpa using (mem_newRows hx).2
  have hd2 : (dropDupBy Row.articleKey (dropDupBy Row.newsId (mergeCore ar nb))).rows
      = ar.rows ++ mergeS ar nb := by
    show dedupeBy Row.articleKey (dropDupBy Row.newsId (mergeCore ar nb)).rows = _
    rw [hd1, dedupeBy_append _ _ _ h.2.2.2.2]
    congr 1
    unfold mergeS
    congr 1
    refine List.filter_congr ?_
    intro x _
    simp
  obtain ⟨hm, em, pm⟩ :=
    ensure_sentiment_rows_map scorer (dropDupBy Row.articleKey (dropDupBy Row.newsId (mergeCore ar nb)))
  exact ⟨hm, pm, by rw [em, hd2]⟩

theorem mergeMain_map_newsId (ar nb : DF) (scorer : String → ℚ) (h : ArchiveWF ar) :
    (mergeMain ar nb scorer).rows.map Row.newsId
      = ar.rows.map Row.newsId ++ (mergeS ar nb).map Row.newsId := by
  obtain ⟨hm, pm, em⟩ := mergeMain_rows ar nb scorer h
  rw [em, List.map_map, ← List.map_append]
  exact List.map_congr_left fun a _ => (pm a).1

theorem mergeMain_map_articleKey (ar nb : DF) (scorer : String → ℚ) (h : ArchiveWF ar) :
    (mergeMain ar nb scorer).rows.map Row.articleKey
      = ar.rows.map Row.articleKey ++ (mergeS ar nb).map Row.articleKey := by
  obtain ⟨hm, pm, em⟩ := mergeMain_rows ar nb scorer h
  rw [em, List.map_map, ← List.map_append]
  exact List.map_congr_left fun a _ => (pm a).2

theorem nodup_map_newsId_mergeS (ar nb : DF) :
    ((mergeS ar nb).map Row.newsId).Nodup := by
  have h1 : (mergeS ar nb).Sublist
      ((dedupeBy Row.newsId (newRows ar nb)).filter fun r =>
        decide (r.articleKey ∉ ar.rows.map Row.articleKey)) := dedupeBy_sublist _ _
  have h2 := h1.trans (List.filter_sublist _)
  have h3 := h2.map Row.newsId
  exact (nodup_map_dedupeBy Row.newsId (newRows ar nb)).sublist h3

theorem nodup_map_articleKey_mergeS (ar nb : DF) :
    ((mergeS ar nb).map Row.articleKey).Nodup :=
  nodup_map_dedupeBy Row.articleKey _

theorem mergeMain_WF (ar nb : DF) (scorer : String → ℚ) (h : ArchiveWF ar) :
    ArchiveWF (mergeMain ar nb scorer) := by
  refine ⟨?_, ?_, ?_, ?_, ?_⟩
  · show (ensure_sentiment scorer _).hasNewsID = true
    rw [ensure_sentiment_hasNewsID]
    show (ensure_article_key (mergeCore ar nb)).hasNewsID = true
    rw [ensure_article_key_hasNewsID]
    exact mergeCore_hasNewsID ar nb h
  · show (ensure_sentiment scorer _).hasArticleKey = true
    rw [ensure_sentiment_hasArticleKey]
    have hek : ensure_article_key (mergeCore ar nb) = mergeCore ar nb :=
      ensure_article_key_noop _ (mergeCore_hasArticleKey ar nb h)
        (fun r hr => (mergeCore_all_some ar nb h r hr).2)
    show (ensure_article_key (mergeCore ar nb)).hasArticleKey = true
    rw [hek]
    exact mergeCore_hasArticleKey ar nb h
  · intro r hr
    obtain ⟨hm, pm, em⟩ := mergeMain_rows ar nb scorer h
    rw [em] at hr
    obtain ⟨x, hx, rfl⟩ := List.mem_map.mp hr
    rw [(pm x).1, (pm x).2]
    rcases List.mem_append.mp hx with hx | hx
    · exact h.2.2.1 x hx
    · exact (mem_newRows (mem_mergeS hx).1).1
  · rw [mergeMain_map_newsId ar nb scorer h]
    rw [List.nodup_append]
    refine ⟨h.2.2.2.1, nodup_map_newsId_mergeS ar nb, ?_⟩
    intro a ha hamem
    obtain ⟨x, hx, rfl⟩ := List.mem_map.mp hamem
    exact (mem_newRows (mem_mergeS hx).1).2 ha
  · rw [mergeMain_map_articleKey ar nb scorer h]
    rw [List.nodup_append]
    refine ⟨h.2.2.2.2, nodup_map_articleKey_mergeS ar nb, ?_⟩
    intro a ha hamem
    obtain ⟨x, hx, rfl⟩ := List.mem_map.mp hamem
    exact (mem_mergeS hx).2 ha

-- ===================== Lemmas: second merge run and final uniqueness =====================

theorem dedupeBy_filter_nil {α β : Type} [DecidableEq β] (k : α → β) (q : α → Bool)
    (l : List α) (h : ∀ x ∈ l, ¬ q x = true) : dedupeBy k (l.filter q) = [] := by
  rw [List.filter_eq_nil_iff.mpr h, dedupeBy_nil]

theorem articleKey_mem_mergeS {ar nb : DF} {r : Row}
    (hD : r ∈ dedupeBy Row.newsId (newRows ar nb))
    (hak : r.articleKey ∉ ar.rows.map Row.articleKey) :
    r.articleKey ∈ (mergeS ar nb).map Row.articleKey := by
  unfold mergeS
  exact mem_map_dedupeBy Row.articleKey _ r
    (List.mem_filter.mpr ⟨hD, decide_eq_true hak⟩)

/-- Re-running the merge with the same batch against the archive produced by
a first run adds no rows: every surviving-batch candidate of the second run
is removed by the dedup passes. -/
theorem mergeS_second_nil (ar nb : DF) (scorer : String → ℚ) (h : ArchiveWF ar) :
    mergeS (mergeMain ar nb scorer) nb = [] := by
  set A1 := mergeMain ar nb scorer with hA1
  have hids := mergeMain_map_newsId ar nb scorer h
  have haks := mergeMain_map_articleKey ar nb scorer h
  rw [← hA1] at hids haks
  have hnr : newRows A1 nb = (newRows ar nb).filter
      (fun r => decide (r.newsId ∉ A1.rows.map Row.newsId)) := by
    unfold newRows
    rw [List.filter_filter]
    refine List.filter_congr ?_
    intro x _
    by_cases h2 : x.newsId ∈ A1.rows.map Row.newsId
    · simp [h2]
    · have h1 : x.newsId ∉ ar.rows.map Row.newsId := by
        intro hmem
        exact h2 (by rw [hids]; exact List.mem_append_left _ hmem)
      simp [h1, h2]
  unfold mergeS
  refine dedupeBy_filter_nil _ _ _ ?_
  intro r hr
  rw [hnr, dedupeBy_filter_comm Row.newsId _ (fun x y hk => by simp [hk])] at hr
  obtain ⟨hrD, hrp⟩ := List.mem_filter.mp hr
  simp only [decide_eq_true_eq, not_not]
  rw [haks]
  by_cases hak : r.articleKey ∈ ar.rows.map Row.articleKey
  · exact List.mem_append_left _ hak
  · exact List.mem_append_right _ (articleKey_mem_mergeS hrD hak)

/-- The persisted frame of any run has duplicate-free NewsID and ArticleKey
columns: the ArticleKey dedup pass directly guarantees the second, and it
only removes rows from the already NewsID-deduplicated list. -/
theorem finalizeDF_nodup (df : DF) (scorer : String → ℚ) :
    ((finalizeDF df scorer).rows.map Row.newsId).Nodup ∧
    ((finalizeDF df scorer).rows.map Row.articleKey).Nodup := by
  obtain ⟨hm, em, pm⟩ := ensure_sentiment_rows_map scorer
    (dropDupBy Row.articleKey (dropDupBy Row.newsId (ensure_article_key df)))
  have hrows : (finalizeDF df scorer).rows
      = (dedupeBy Row.articleKey (dedupeBy Row.newsId (ensure_article_key df).rows)).map hm := em
  constructor
  · rw [hrows, List.map_map]
    have hcong : List.map (Row.newsId ∘ hm)
        (dedupeBy Row.articleKey (dedupeBy Row.newsId (ensure_article_key df).rows))
        = List.map Row.newsId
          (dedupeBy Row.articleKey (dedupeBy Row.newsId (ensure_article_key df).rows)) :=
      List.map_congr_left fun a _ => (pm a).1
    rw [hcong]
    have hsub := (dedupeBy_sublist Row.articleKey
      (dedupeBy Row.newsId (ensure_article_key df).rows)).map Row.newsId
    exact (nodup_map_dedupeBy Row.newsId _).sublist hsub
  · rw [hrows, List.map_map]
    have hcong : List.map (Row.articleKey ∘ hm)
        (dedupeBy Row.articleKey (dedupeBy Row.newsId (ensure_article_key df).rows))
        = List.map Row.articleKey
          (dedupeBy Row.articleKey (dedupeBy Row.newsId (ensure_article_key df).rows)) :=
      List.map_congr_left fun a _ => (pm a).2
    rw [hcong]
    exact nodup_map_dedupeBy Row.articleKey _

-- ===================== Lemmas: assorted helpers =====================

theorem ensure_news_id_map_url (df : DF) :
    (ensure_news_id df).rows.map Row.url = df.rows.map Row.url := by
  unfold ensure_news_id
  split
  · rfl
  · split
    · simp [recomputeNewsIdRows, List.map_map]
    · rfl

theorem addScoreCol_hasLabel (df : DF) : (addScoreCol df).hasLabel = df.hasLabel := by
  unfold addScoreCol
  split <;> rfl

theorem any_newsId_isNone_eq (rows : List Row) :
    (rows.any fun r => r.newsId.isNone) = !(rows.all fun r => r.newsId.isSome) := by
  induction rows with
  | nil => rfl
  | cons a t ih => cases hn : a.newsId <;> simp [List.any_cons, List.all_cons, ih, hn]

theorem any_articleKey_isNone_eq (rows : List Row) :
    (rows.any fun r => r.articleKey.isNone) = !(rows.all fun r => r.articleKey.isSome) := by
  induction rows with
  | nil => rfl
  | cons a t ih => cases hn : a.articleKey <;> simp [List.any_cons, List.all_cons, ih, hn]

theorem forall₂_map_self {α β : Type} {P : α → β → Prop} {g : α → β} {l : List α}
    (h : ∀ a ∈ l, P a (g a)) : List.Forall₂ P l (l.map g) := by
  induction l with
  | nil => exact List.Forall₂.nil
  | cons a t ih =>
    exact List.Forall₂.cons (h a (List.mem_cons_self a t))
      (ih fun x hx => h x (List.mem_cons_of_mem a hx))

theorem row_set_score_none {r : Row} (h : r.sentiment_score = none) :
    { r with sentiment_score := none } = r := by
  cases r
  simp only at h ⊢
  rw [h]

theorem row_set_label_none {r : Row} (h : r.sentiment_label = none) :
    { r with sentiment_label := none } = r := by
  cases r
  simp only at h ⊢
  rw [h]

-- ===================== Claim theorems =====================

/-- C9: when a run fetches nothing and no archive file exists, main is a
no-op: it reports the "nothing to do" notice and writes no archive. -/
theorem empty_run_nothing_to_do (scorer : String → ℚ) :
    mainRun none none scorer = RunOutcome.nothingToDo := rfl

/-- C4: in the archive state persisted at the end of any run, no two rows
share a NewsID and no two rows share an ArticleKey. -/
theorem persisted_keys_unique (archive fetched : Option DF) (scorer : String → ℚ) (out : DF)
    (h : mainRun archive fetched scorer = RunOutcome.saved out) :
    (out.rows.map Row.newsId).Nodup ∧ (out.rows.map Row.articleKey).Nodup := by
  cases fetched with
  | none =>
    cases archive with
    | none => simp [mainRun] at h
    | some ar =>
      simp only [mainRun] at h
      injection h with h2
      rw [← h2]
      exact finalizeDF_nodup _ _
  | some nb =>
    cases archive with
    | none =>
      simp only [mainRun] at h
      injection h with h2
      rw [← h2]
      exact finalizeDF_nodup _ _
    | some ar =>
      simp only [mainRun] at h
      injection h with h2
      rw [← h2]
      exact finalizeDF_nodup (mergeCore ar nb) scorer

/-- Witness for C4 at a concrete run: one fetched frame, no archive. -/
theorem persisted_keys_unique_wit :
    (wOut4.rows.map Row.newsId).Nodup ∧ (wOut4.rows.map Row.articleKey).Nodup :=
  persisted_keys_unique none (some wDF4) zeroScorer wOut4 rfl

/-- C1: merging a batch all of whose rows carry NewsIDs already present in a
well-formed archive leaves the number of archived rows unchanged. -/
theorem merge_of_known_ids_preserves_size (ar nb : DF) (scorer : String → ℚ)
    (h : ArchiveWF ar)
    (hb : ∀ r ∈ (ensure_article_key (ensure_news_id nb)).rows,
      r.newsId ∈ ar.rows.map Row.newsId) :
    (mergeMain ar nb scorer).rows.length = ar.rows.length := by
  have hnr : newRows ar nb = [] := by
    unfold newRows
    rw [List.filter_eq_nil_iff]
    intro r hr
    simp only [decide_eq_true_eq, not_not]
    exact hb r hr
  have hS : mergeS ar nb = [] := by
    unfold mergeS
    rw [hnr, dedupeBy_nil]
    simp [dedupeBy_nil]
  obtain ⟨hm, pm, em⟩ := mergeMain_rows ar nb scorer h
  rw [em, hS, List.append_nil, List.length_map]

/-- Witness for C1: a one-row archive and a batch repeating its NewsID. -/
theorem merge_of_known_ids_preserves_size_wit :
    (mergeMain wAr1 wNb1 zeroScorer).rows.length = wAr1.rows.length :=
  merge_of_known_ids_preserves_size wAr1 wNb1 zeroScorer
    ⟨by decide, by decide, by decide, by decide, by decide⟩ (by decide)

/-- C6 counterexample: for an archive violating the ArticleKey-uniqueness
invariant, merging the same batch twice ends with more rows than merging it
once, so the claim quantified over all frames is false. -/
theorem merge_twice_grows_cex :
    (mergeMain (mergeMain cexAr6 cexNb6 zeroScorer) cexNb6 zeroScorer).rows.length
      ≠ (mergeMain cexAr6 cexNb6 zeroScorer).rows.length := by decide

/-- C6 (amended): for every archive satisfying the spec's archive invariant
(identity columns present, non-null, duplicate-free), merging a batch twice
yields the same persisted size as merging it once. -/
theorem merge_idempotent_size_of_unique (ar nb : DF) (scorer : String → ℚ)
    (h : ArchiveWF ar) :
    (mergeMain (mergeMain ar nb scorer) nb scorer).rows.length
      = (mergeMain ar nb scorer).rows.length := by
  obtain ⟨hm, pm, em⟩ :=
    mergeMain_rows (mergeMain ar nb scorer) nb scorer (mergeMain_WF ar nb scorer h)
  rw [em, mergeS_second_nil ar nb scorer h, List.append_nil, List.length_map]

/-- Witness for C6 at a concrete unique-keyed archive and a fresh batch. -/
theorem merge_idempotent_size_of_unique_wit :
    (mergeMain (mergeMain wAr1 wNb6 zeroScorer) wNb6 zeroScorer).rows.length
      = (mergeMain wAr1 wNb6 zeroScorer).rows.length :=
  merge_idempotent_size_of_unique wAr1 wNb6 zeroScorer
    ⟨by decide, by decide, by decide, by decide, by decide⟩

/-- C5 counterexample: with the NewsID column present, one null entry makes
ensure_news_id recompute the whole column, overwriting the existing non-null
identity "oldid" of the first row. -/
theorem ensure_ids_overwrite_cex :
    c5df.rows.map Row.newsId = [some "oldid", none]
    ∧ ((ensure_news_id c5df).rows.map Row.newsId).head? ≠ some (some "oldid") := by decide

/-- C5 (amended): identity assignment is column-level, not row-level: the
table is unchanged exactly when it is empty or the identity column is
present with no nulls; otherwise the whole column is recomputed for every
row, overwriting any existing values. -/
theorem ensure_ids_column_level (df : DF) :
    ensure_news_id df
      = (if df.rows.isEmpty || (df.hasNewsID && df.rows.all fun r => r.newsId.isSome) then df
         else { df with hasNewsID := true, rows := recomputeNewsIdRows df.rows })
    ∧ ensure_article_key df
      = (if df.rows.isEmpty || (df.hasArticleKey && df.rows.all fun r => r.articleKey.isSome)
         then df
         else { df with hasArticleKey := true, rows := recomputeArticleKeyRows df.rows }) := by
  constructor
  · unfold ensure_news_id
    rw [any_newsId_isNone_eq]
    by_cases he : df.rows.isEmpty <;> by_cases hh : df.hasNewsID <;>
      by_cases hall : (df.rows.all fun r => r.newsId.isSome) <;>
      simp [he, hh, hall]
  · unfold ensure_article_key
    rw [any_articleKey_isNone_eq]
    by_cases he : df.rows.isEmpty <;> by_cases hh : df.hasArticleKey <;>
      by_cases hall : (df.rows.all fun r => r.articleKey.isSome) <;>
      simp [he, hh, hall]

/-- C7: enrichment computes sentiment for exactly the rows whose score is
null and returns every already-scored row unchanged (score and label
alike).  The two hypotheses record the pandas fact that an absent column
has no values. -/
theorem enrichment_exactly_missing (scorer : String → ℚ) (df : DF)
    (hs : df.hasScore = false → ∀ r ∈ df.rows, r.sentiment_score = none)
    (hl : df.hasLabel = false → ∀ r ∈ df.rows, r.sentiment_label = none) :
    List.Forall₂ (fun r r' =>
      (r.sentiment_score.isSome = true → r' = r) ∧
      (r.sentiment_score = none → r' = sentRow scorer r))
      df.rows (ensure_sentiment scorer df).rows := by
  have h1 : (addScoreCol df).rows = df.rows := by
    unfold addScoreCol
    split
    · rfl
    · next hns =>
      show df.rows.map _ = df.rows
      conv_rhs => rw [← List.map_id df.rows]
      refine List.map_congr_left ?_
      intro a ha
      have hfalse : df.hasScore = false := by
        cases hb : df.hasScore
        · rfl
        · exact absurd hb hns
      show { a with sentiment_score := none } = a
      exact row_set_score_none (hs hfalse a ha)
  have h1b : (addScoreCol df).hasLabel = df.hasLabel := addScoreCol_hasLabel df
  have h2 : (addLabelCol (addScoreCol df)).rows = df.rows := by
    unfold addLabelCol
    split
    · exact h1
    · next hnl =>
      show (addScoreCol df).rows.map _ = df.rows
      rw [h1]
      conv_rhs => rw [← List.map_id df.rows]
      refine List.map_congr_left ?_
      intro a ha
      rw [h1b] at hnl
      have hfalse : df.hasLabel = false := by
        cases hb : df.hasLabel
        · rfl
        · exact absurd hb hnl
      show { a with sentiment_label := none } = a
      exact row_set_label_none (hl hfalse a ha)
  simp only [ensure_sentiment]
  split
  · next he =>
    rw [List.isEmpty_iff] at he
    rw [he]
    exact List.Forall₂.nil
  · split
    · next hall =>
      rw [h2]
      rw [h2] at hall
      refine List.forall₂_same.mpr ?_
      intro a ha
      have hsome := List.all_eq_true.mp hall a ha
      constructor
      · intro _
        rfl
      · intro hnone
        rw [hnone] at hsome
        simp at hsome
    · next hnall =>
      rw [h2]
      refine forall₂_map_self ?_
      intro a ha
      by_cases hsome : a.sentiment_score.isSome = true
      · constructor
        · intro _
          simp [hsome]
        · intro hnone
          rw [hnone] at hsome
          simp at hsome
      · constructor
        · intro hs2
          exact absurd hs2 hsome
        · intro _
          simp [hsome]

/-- Witness for C7: one scored and one unscored row. -/
theorem enrichment_exactly_missing_wit :
    List.Forall₂ (fun r r' =>
      (r.sentiment_score.isSome = true → r' = r) ∧
      (r.sentiment_score = none → r' = sentRow zeroScorer r))
      c7df.rows (ensure_sentiment zeroScorer c7df).rows :=
  enrichment_exactly_missing zeroScorer c7df (by decide) (by decide)

/-- C8: the per-row sentiment contract: empty or whitespace-only composed
text yields null score and label with the scorer never consulted; otherwise
the score is the scorer compound and the label follows the plus-minus 0.05
thresholds.  The last two conjuncts tie the row update to this contract. -/
theorem sentiment_text_thresholds (scorer : String → ℚ) (r : Row) :
    (if (composed_text r).isEmpty || (pyStrip (composed_text r)).isEmpty then
        sentiment_for_text scorer (composed_text r) = (none, none)
        ∧ ∀ other : String → ℚ, sentiment_for_text other (composed_text r) = (none, none)
      else
        sentiment_for_text scorer (composed_text r)
          = (some (scorer (composed_text r)),
             some (if scorer (composed_text r) ≥ vaderThreshold then "positive"
               else if scorer (composed_text r) ≤ -vaderThreshold then "negative"
               else "neutral")))
    ∧ (sentRow scorer r).sentiment_score = (sentiment_for_text scorer (composed_text r)).1
    ∧ (sentRow scorer r).sentiment_label = (sentiment_for_text scorer (composed_text r)).2 := by
  refine ⟨?_, rfl, rfl⟩
  by_cases hc : ((composed_text r).isEmpty || (pyStrip (composed_text r)).isEmpty) = true
  · rw [if_pos hc]
    refine ⟨?_, ?_⟩
    · unfold sentiment_for_text
      rw [if_pos hc]
    · intro other
      unfold sentiment_for_text
      rw [if_pos hc]
  · rw [if_neg hc]
    unfold sentiment_for_text
    rw [if_neg hc]

/-- C2 counterexample: the spec says the ticker is uppercased AND trimmed,
but make_news_id does not trim the ticker, so on a ticker with leading
whitespace the code digest differs from the spec-normalized digest. -/
theorem news_id_not_trimmed_cex :
    make_news_id (some " NVDA") (some "a") (some "2024-01-01T00:00:00Z")
      ≠ news_id_spec_normalized (some " NVDA") (some "a") (some "2024-01-01T00:00:00Z") := by
  decide

/-- C2 (amended): make_news_id is the hex SHA-256 of the pipe-joined key
built from the uppercased (but not trimmed) ticker, the trimmed URL and the
trimmed timestamp, with missing fields as the empty string; on the NVDA
scenario input it equals the stated digest. -/
theorem news_id_formula_untrimmed :
    (∀ ticker url published_at : Option String,
      make_news_id ticker url published_at
        = sha256hex (pyUpper (pyOrEmpty ticker) ++ "|" ++ pyStrip (pyOrEmpty url) ++ "|" ++
            pyStrip (pyOrEmpty published_at)))
    ∧ make_news_id (some "NVDA") (some "a") (some "2024-01-01T00:00:00Z")
        = "fcd44f874f893122032bbc5709d1110754c80df6e66098797736dd1f37bec11c" :=
  ⟨fun _ _ _ => rfl, by decide⟩

/-- C3: in the cross-source duplicate scenario (same ticker, title and
timestamp, different URL) the batch row passes the NewsID filter but is
removed by the later ArticleKey dedup pass, so the persisted archive keeps
exactly the original row with URL "a" and its size is unchanged. -/
theorem dedup_order_article_key_scenario :
    (mergeMain arC3 nbC3 zeroScorer).rows.map Row.url = [some "a"]
    ∧ arC3.rows.length = 1 := by decide

/-- C10: fetch post-processing deduplicates each ticker batch by URL alone
before NewsID assignment, keeping the first occurrence; concretely, two
articles with the same URL but different timestamps (which would receive
distinct NewsIDs) collapse to the earlier one. -/
theorem fetch_dedup_by_url :
    (∀ (ticker : String) (articles : List RawArticle),
      ((fetch_news_for_ticker ticker articles).rows.map Row.url).Nodup)
    ∧ (fetch_news_for_ticker "NVDA" [artT1, artT2]).rows.map Row.publishedAt = [some "t1"]
    ∧ make_news_id (some "NVDA") (some "u") (some "t1")
        ≠ make_news_id (some "NVDA") (some "u") (some "t2") := by
  refine ⟨?_, by decide, by decide⟩
  intro ticker articles
  simp only [fetch_news_for_ticker]
  split
  · next he =>
    rw [List.isEmpty_iff] at he
    rw [he]
    exact List.nodup_nil
  · rw [ensure_news_id_map_url]
    exact nodup_map_dedupeBy Row.url _
